import Mathlib

/-!
Verification development for the Sportybet odds scraper
(src/server/scrapers/custom/sporty_py_scraper.py).

The scraper consumes parsed JSON from the provider, so raw event and
tournament nodes are modelled by a `Json` value type.  Python dictionary
and object semantics (`dict.get`, truthiness, `in`, `len`, iteration,
`str.lower`, `int(...)`, `==`) are embedded by small total helpers;
an operation that would raise a Python exception is modelled by `none`
in `Option`, matching the try/except structure of the source, where
every handler converts the exception into skipping the current node.
-/

/-- JSON values, the shape of data handed to the scraper by
json.loads.  Numbers are modelled as rationals (JSON numerals are
finite decimals); objects are key/value lists with distinct keys, as
produced by the Python json parser. -/
inductive Json where
  | null : Json
  | bool (b : Bool) : Json
  | num (q : ℚ) : Json
  | str (s : String) : Json
  | arr (l : List Json) : Json
  | obj (kvs : List (String × Json)) : Json

/-- Python truthiness: None, False, 0, empty string, empty list and
empty dict are falsy, everything else truthy. -/
def Json.truthy : Json → Bool
  | .null => false
  | .bool b => b
  | .num q => !(q == 0)
  | .str s => !(s == "")
  | .arr l => !l.isEmpty
  | .obj kvs => !kvs.isEmpty

/-- Whether the value is a Python dict. -/
def Json.isObj : Json → Bool
  | .obj _ => true
  | _ => false

/-- Python `d.get(k, default)`; `none` models the AttributeError raised
when the receiver is not a dict. -/
def dget (j : Json) (k : String) (d : Json) : Option Json :=
  match j with
  | .obj kvs => some ((kvs.lookup k).getD d)
  | _ => none

/-- The value a dict holds at a key, with `null` standing both for an
absent key and for the Python None default of `dict.get`; non-dict
receivers also give `null`.  Used to state claims about missing
fields. -/
def Json.field (j : Json) (k : String) : Json :=
  match j with
  | .obj kvs => (kvs.lookup k).getD .null
  | _ => .null

/-- Python `len(x)` for sized values; `none` models the TypeError on
unsized values. -/
def pyLen? : Json → Option Nat
  | .arr l => some l.length
  | .str s => some s.length
  | .obj kvs => some kvs.length
  | _ => none

/-- Substring test used by the Python `in` operator on strings. -/
def strContains (hay needle : String) : Bool :=
  if needle == "" then true
  else decide (needle.data <:+: hay.data)

/-- Python `k in x` for a string key: key membership for dicts, element
equality for lists, substring test for strings; `none` models the
TypeError on other receivers. -/
def pyContains? (j : Json) (k : String) : Option Bool :=
  match j with
  | .obj kvs => some (kvs.any (fun p => p.1 == k))
  | .arr l => some (l.any (fun e => match e with | .str s => s == k | _ => false))
  | .str s => some (strContains s k)
  | _ => none

/-- Python `x[k]` subscription with a string key; only dicts can
succeed, and a missing key (KeyError) raises like a type error does. -/
def pyGetItem? (j : Json) (k : String) : Option Json :=
  match j with
  | .obj kvs => kvs.lookup k
  | _ => none

/-- Python iteration `for e in x`: lists yield elements, strings yield
one-character strings, dicts yield their keys; `none` models the
TypeError on non-iterables. -/
def pyIter? : Json → Option (List Json)
  | .arr l => some l
  | .str s => some (s.data.map (fun c => .str (String.mk [c])))
  | .obj kvs => some (kvs.map (fun p => .str p.1))
  | _ => none

/-- Python `x[0]` on a value known to have positive length; dicts raise
(string keys only in this data), as does the impossible empty case. -/
def pyIndex0? : Json → Option Json
  | .arr (a :: _) => some a
  | .str s => (s.data.head?).map (fun c => .str (String.mk [c]))
  | _ => none

/-- Python `x == 0` for a JSON value: 0, 0.0 and False equal 0; strings,
None and containers do not. -/
def pyEqZero : Json → Bool
  | .num q => q == 0
  | .bool b => !b
  | _ => false

/-- Python `str.lower`, mapped over the characters. -/
def pyLower (s : String) : String := ⟨s.data.map Char.toLower⟩

/-- Python `str(x)` as used inside f-strings.  Strings, booleans and
None are exact; the decimal repr of numbers and the repr of containers
are abstracted (no claim depends on them). -/
def pyStr : Json → String
  | .null => "None"
  | .bool true => "True"
  | .bool false => "False"
  | .num q => if q.den == 1 then toString q.num else toString q.num ++ "/" ++ toString q.den
  | .str s => s
  | .arr _ => "[...]"
  | .obj _ => "<dict>"

/-- Truncation of a rational toward zero, the behaviour of Python
`int()` on a float. -/
def ratTrunc (q : ℚ) : Int := if q ≥ 0 then q.floor else -((-q).floor)

/-- Simple signed decimal integer parser mirroring Python `int(str)`
on trimmed input (sign followed by digits; anything else raises). -/
def parseInt? (s : String) : Option Int :=
  match s.data with
  | [] => none
  | '-' :: ds => if ds ≠ [] ∧ ds.all Char.isDigit
      then some (-(Int.ofNat (ds.foldl (fun n c => n * 10 + (c.toNat - 48)) 0)))
      else none
  | '+' :: ds => if ds ≠ [] ∧ ds.all Char.isDigit
      then some (Int.ofNat (ds.foldl (fun n c => n * 10 + (c.toNat - 48)) 0))
      else none
  | ds => if ds.all Char.isDigit
      then some (Int.ofNat (ds.foldl (fun n c => n * 10 + (c.toNat - 48)) 0))
      else none

/-- Python `int(x)`: numbers truncate, booleans become 0 or 1, strings
parse as signed decimals (whitespace stripped); None and containers
raise. -/
def pyInt? : Json → Option Int
  | .num q => some (ratTrunc q)
  | .bool b => some (if b then 1 else 0)
  | .str s => parseInt? (String.mk (s.data.filter (fun c => !c.isWhitespace)))
  | _ => none

/-- Two-digit zero padding for strftime fields. -/
def pad2 (n : Nat) : String := if n < 10 then "0" ++ toString n else toString n

/-- Four-digit zero padding for the strftime year. -/
def pad4 (y : Int) : String :=
  if 0 ≤ y ∧ y < 10 then "000" ++ toString y
  else if 0 ≤ y ∧ y < 100 then "00" ++ toString y
  else if 0 ≤ y ∧ y < 1000 then "0" ++ toString y
  else toString y

/-- Rendering of an epoch-seconds value in the source format
"YYYY-MM-DD HH:MM", models datetime.fromtimestamp followed by
strftime; the local timezone of the host is abstracted to a fixed zero
offset (the claims exclude the timezone dependence of this field). -/
def fmtTime (t : ℚ) : String :=
  let s : Int := ⌊t⌋
  let days : Int := s.ediv 86400
  let sod : Nat := (s.emod 86400).toNat
  let z : Int := days + 719468
  let era : Int := z.ediv 146097
  let doe : Nat := (z - era * 146097).toNat
  let yoe : Nat := (doe - doe / 1460 + doe / 36524 - doe / 146096) / 365
  let y0 : Int := (yoe : Int) + era * 400
  let doy : Nat := doe - (365 * yoe + yoe / 4 - yoe / 100)
  let mp : Nat := (5 * doy + 2) / 153
  let d : Nat := doy - (153 * mp + 2) / 5 + 1
  let m : Nat := if mp < 10 then mp + 3 else mp - 9
  let y : Int := if m ≤ 2 then y0 + 1 else y0
  pad4 y ++ "-" ++ pad2 m ++ "-" ++ pad2 d ++ " " ++ pad2 (sod / 3600) ++ ":" ++ pad2 (sod % 3600 / 60)

/-- Removal of every non-digit character, the effect of the source
regex substitution on the raw event identifier. -/
def stripNonDigits (s : String) : String := ⟨s.data.filter Char.isDigit⟩

/-- The canonical record produced per accepted event (the dict built at
lines 175-186 and 317-328 of the source).  Fields that Python fills
with arbitrary JSON-typed values keep type `Json`; the event label and
the normalized identifier are genuine strings; `start_time` is the
formatted string or Python None. -/
structure Record where
  eventId : String
  originalEventId : Json
  country : Json
  tournament : Json
  event : String
  market : String
  home_odds : Json
  draw_odds : Json
  away_odds : Json
  start_time : Option String

/-- Descriptor of one outcome inside the process_event loop (line 155):
`outcome.get('desc', '').lower() if outcome.get('desc') else ''`;
`none` models the exception when the receiver is not a dict or the
descriptor is a truthy non-string. -/
def outcomeDesc (o : Json) : Option String := do
  let d ← dget o "desc" .null
  if d.truthy then
    match d with
    | .str s => pure (pyLower s)
    | _ => none
  else pure ""

/-- The for-loop of process_event (lines 154-162): each matching
descriptor overwrites the corresponding odds slot, so the last match
wins; any exception aborts the whole event. -/
def foldOutcomes : List Json → Json × Json × Json → Option (Json × Json × Json)
  | [], acc => some acc
  | o :: rest, (h, d, a) => do
    let desc ← outcomeDesc o
    if desc == "home" then do
      let odds ← dget o "odds" (.num 0)
      foldOutcomes rest (odds, d, a)
    else if desc == "draw" then do
      let odds ← dget o "odds" (.num 0)
      foldOutcomes rest (h, odds, a)
    else if desc == "away" then do
      let odds ← dget o "odds" (.num 0)
      foldOutcomes rest (h, d, odds)
    else foldOutcomes rest (h, d, a)

/-- Lazy search for the market with id "1"
(`next((m for m in markets if m.get('id') == "1"), None)`, lines 148
and 247): elements after the first match are never inspected; a
non-dict element reached before a match raises. -/
def findFirstMarket : List Json → Option (Option Json)
  | [] => some none
  | m :: rest =>
    match dget m "id" .null with
    | none => none
    | some v =>
      match v with
      | .str s => if s == "1" then some (some m) else findFirstMarket rest
      | _ => findFirstMarket rest

/-- Embeds process_event (source lines 104-193).  `none` covers both
the explicit `return None` rejections and every exception caught by
the enclosing handler.  The start-time conversion failure is swallowed
by its inner handler, leaving the field absent.  The final
serialization round trip (line 189) is the identity on this data. -/
def process_event (event : Json) : Option Record := do
  let hv ← dget event "homeTeamName" .null
  let av ← dget event "awayTeamName" .null
  let ev ← dget event "eventId" .null
  if !hv.truthy || !av.truthy || !ev.truthy then none else do
  let sport ← dget event "sport" .null
  let country ← (if sport.truthy then do
      let cat ← dget sport "category" .null
      if cat.truthy then dget cat "name" (.str "Unknown")
      else pure (Json.str "Unknown")
    else pure (Json.str "Unknown"))
  let tour ← dget event "tournament" .null
  let tournament_name ← (if tour.truthy then do
      let n ← dget tour "name" .null
      if n.truthy then dget tour "name" (.str "Unknown Tournament")
      else pure (Json.str "Unknown Tournament")
    else pure (Json.str "Unknown Tournament"))
  let home_team ← dget event "homeTeamName" (.str "")
  let away_team ← dget event "awayTeamName" (.str "")
  let team_names := pyStr home_team ++ " - " ++ pyStr away_team
  let est ← dget event "estimateStartTime" .null
  let start_time : Option String :=
    if est.truthy then (pyInt? est).map (fun n => fmtTime ((n : ℚ) / 1000)) else none
  let markets ← dget event "markets" .null
  let odds ← (match markets with
    | .arr ms =>
      if !ms.isEmpty then do
        let mkt ← findFirstMarket ms
        match mkt with
        | some market =>
          if market.truthy then do
            let outs ← dget market "outcomes" .null
            if outs.truthy then
              match outs with
              | .arr os => foldOutcomes os (.num 0, .num 0, .num 0)
              | _ => pure (Json.num 0, Json.num 0, Json.num 0)
            else pure (Json.num 0, Json.num 0, Json.num 0)
          else pure (Json.num 0, Json.num 0, Json.num 0)
        | none => pure (Json.num 0, Json.num 0, Json.num 0)
      else pure (Json.num 0, Json.num 0, Json.num 0)
    | _ => pure (Json.num 0, Json.num 0, Json.num 0))
  let (home_odds, draw_odds, away_odds) := odds
  if pyEqZero home_odds || pyEqZero draw_odds || pyEqZero away_odds then none else do
  let original_id ← dget event "eventId" (.str "")
  let normalized_id ← (if original_id.truthy then
      match original_id with
      | .str s => some (stripNonDigits s)
      | _ => none
    else some "")
  pure { eventId := normalized_id, originalEventId := original_id,
         country := country, tournament := tournament_name,
         event := team_names, market := "1X2",
         home_odds := home_odds, draw_odds := draw_odds, away_odds := away_odds,
         start_time := start_time }

/-- One entry of the outcome comprehension at line 257 of the source:
`{'desc': o.get('desc', '').lower(), 'odds': o.get('odds', 0)}`.
Unlike process_event, the descriptor is lowercased without a
truthiness guard, so an explicit null descriptor raises and skips the
whole event. -/
def outcomePairT (o : Json) : Option (String × Json) := do
  let d ← dget o "desc" (.str "")
  let ds ← (match d with
    | .str s => some (pyLower s)
    | _ => none)
  let odds ← dget o "odds" (.num 0)
  pure (ds, odds)

/-- Per-event body of the loop in process_tournaments (source lines
240-330).  `none` covers both validation skips and every exception
caught by the per-event handler.  Note the differences from
process_event: the first matching outcome wins (next rather than a
loop), and the event is skipped only when all three odds are zero. -/
def processEventT (country tname : Json) (event : Json) : Option Record := do
  let hv ← dget event "homeTeamName" .null
  let av ← dget event "awayTeamName" .null
  let ev ← dget event "eventId" .null
  if !hv.truthy || !av.truthy || !ev.truthy then none else do
  let marketsJ ← dget event "markets" (.arr [])
  let ms ← pyIter? marketsJ
  let mkt ← findFirstMarket ms
  match mkt with
  | none => none
  | some market =>
    if !market.truthy then none else do
    let outs ← dget market "outcomes" .null
    if !outs.truthy then none else
    match outs with
    | .arr os => do
      let pairs ← os.mapM outcomePairT
      let home_odds := (((pairs.find? (fun p => p.1 == "home")).map Prod.snd).getD (.num 0))
      let draw_odds := (((pairs.find? (fun p => p.1 == "draw")).map Prod.snd).getD (.num 0))
      let away_odds := (((pairs.find? (fun p => p.1 == "away")).map Prod.snd).getD (.num 0))
      if pyEqZero home_odds && pyEqZero draw_odds && pyEqZero away_odds then none else do
      let est ← dget event "estimateStartTime" .null
      let start_time : Option String :=
        if est.truthy then (pyInt? est).map (fun n => fmtTime ((n : ℚ) / 1000)) else none
      let original_id ← dget event "eventId" (.str "")
      let normalized_id ← (if original_id.truthy then
          match original_id with
          | .str s => some (stripNonDigits s)
          | _ => none
        else some "")
      let ht ← dget event "homeTeamName" .null
      let aw ← dget event "awayTeamName" .null
      pure { eventId := normalized_id, originalEventId := original_id,
             country := country, tournament := tname,
             event := pyStr ht ++ " - " ++ pyStr aw, market := "1X2",
             home_odds := home_odds, draw_odds := draw_odds, away_odds := away_odds,
             start_time := start_time }
    | _ => none

/-- Per-tournament body of process_tournaments (source lines 216-337)
up to the list of records it appends; `none` models an exception
caught by the per-tournament handler (the tournament contributes
nothing and the loop continues). -/
def tournamentRecords? (t : Json) : Option (List Record) := do
  let tname ← dget t "name" (.str "Unknown Tournament")
  let country ← (do
    let he ← pyContains? t "events"
    if he then do
      let evs ← pyGetItem? t "events"
      let len ← pyLen? evs
      if 0 < len then do
        let fe ← pyIndex0? evs
        let hs ← pyContains? fe "sport"
        if hs then do
          let sport ← pyGetItem? fe "sport"
          let hc ← pyContains? sport "category"
          if hc then do
            let sport2 ← pyGetItem? fe "sport"
            let cat ← pyGetItem? sport2 "category"
            dget cat "name" (.str "Unknown")
          else pure (Json.str "Unknown")
        else pure (Json.str "Unknown")
      else pure (Json.str "Unknown")
    else pure (Json.str "Unknown"))
  let _isEpl ← (match country with
    | .str c =>
      if c == "England" then
        match tname with
        | .str _ => some true
        | _ => none
      else some false
    | _ => some false)
  match t with
  | .obj kvs =>
    match kvs.lookup "events" with
    | some (.arr es) => pure (es.filterMap (processEventT country tname))
    | _ => pure []
  | _ => pure []

/-- One tournament of the loop: an exception in the body is downgraded
to an empty contribution. -/
def processTournament (t : Json) : List Record :=
  (tournamentRecords? t).getD []

/-- Embeds process_tournaments (source lines 195-364): the records of
each tournament are appended in order; tracking and logging do not
affect the result.  This is the function whose value main serializes
(line 446). -/
def process_tournaments (ts : List Json) : List Record :=
  (ts.map processTournament).flatten

/-- Page-fetch safety ceiling (source line 34). -/
def MAX_PAGES : Nat := 20

/-- Outcome of one iteration body of the pagination loop in main
(source lines 389-427) for a given page. -/
inductive PageStep where
  | invalid : PageStep
  | stop : PageStep
  | collect (ts : List Json) : PageStep
  | exc : PageStep

/-- One page of the loop body.  The fetch oracle returns `none` when
fetch_page returned None (transport failure, empty body, or JSON parse
error — fetch_page converts all of these to None, lines 73-102).
`invalid` is the branch at lines 393-399, `stop` the end-of-data
branch at line 411, `collect` the branch extending all_tournaments,
and `exc` an exception caught by the per-page handler (lines
423-427). -/
def pageStep (fetch : Nat → Option Json) (page : Nat) : PageStep :=
  match fetch page with
  | none => .invalid
  | some pd =>
    match (do
      if !pd.truthy then pure PageStep.invalid else do
      let hd ← pyContains? pd "data"
      if !hd then pure PageStep.invalid else do
      let d ← pyGetItem? pd "data"
      let ht ← pyContains? d "tournaments"
      if !ht then pure PageStep.invalid else do
      let d2 ← pyGetItem? pd "data"
      let tsJ ← dget d2 "tournaments" (.arr [])
      let _lenTs ← pyLen? tsJ
      let tlist ← pyIter? tsJ
      let counts ← tlist.mapM (fun t => do
        let evs ← dget t "events" (.arr [])
        pyLen? evs)
      let pageEvents := counts.foldl (· + ·) 0
      if pageEvents == 0 || tlist.length == 0 then pure PageStep.stop
      else pure (PageStep.collect tlist)) with
    | some st => st
    | none => PageStep.exc

/-- The while loop of main (source lines 384-427).  `page` starts at 1
and strictly increases on every path, and the guard requires
`page ≤ MAX_PAGES`, so the fuel argument, initialized to MAX_PAGES,
never runs out before the guard fails: the fuel is a totality device
only.  `tEx` is the oracle for the wall-clock budget check at the page
boundary (line 385).  On `invalid`, `more_pages` is cleared when
`page > 1`, which exits the loop; on `stop` the loop also exits; on
`exc` the page is skipped and the loop continues. -/
def paginateGo (fetch : Nat → Option Json) (tEx : Nat → Bool) :
    Nat → Nat → List Json → List Json
  | 0, _, acc => acc
  | fuel + 1, page, acc =>
    if page ≤ MAX_PAGES then
      if tEx page then acc
      else
        match pageStep fetch page with
        | .invalid => if 1 < page then acc else paginateGo fetch tEx fuel (page + 1) acc
        | .stop => acc
        | .collect ts => paginateGo fetch tEx fuel (page + 1) (acc ++ ts)
        | .exc => paginateGo fetch tEx fuel (page + 1) acc
    else acc

/-- The tournaments main accumulates over one run. -/
def paginate (fetch : Nat → Option Json) (tEx : Nat → Bool) : List Json :=
  paginateGo fetch tEx MAX_PAGES 1 []

/-- The England test of the limited-time prioritization comprehension
(source lines 440-442); `none` models an exception there, which is NOT
caught by any inner handler and therefore aborts main. -/
def isEnglandT? (t : Json) : Option Bool := do
  let he ← pyContains? t "events"
  if !he then pure false else do
  let evs ← pyGetItem? t "events"
  let len ← pyLen? evs
  if len == 0 then pure false else do
  let fe ← pyIndex0? evs
  let hs ← pyContains? fe "sport"
  if !hs then pure false else do
  let sport ← pyGetItem? fe "sport"
  let hc ← pyContains? sport "category"
  if !hc then pure false else do
  let sport2 ← pyGetItem? fe "sport"
  let cat ← pyGetItem? sport2 "category"
  let name ← dget cat "name" (.str "")
  pure (match name with | .str s => s == "England" | _ => false)

mutual

/-- Structural equality of JSON values, the behaviour of Python `==`
on parsed JSON data (dict comparison is modelled on the stored key
order; the source only ever compares values drawn from one list, where
this coincides).  Used by the membership test of the limited-time
branch. -/
def Json.beq (x y : Json) : Bool :=
  match x, y with
  | .obj p, .obj q => Json.beqObj p q
  | .arr p, .arr q => Json.beqList p q
  | .str p, .str q => p == q
  | .num p, .num q => p == q
  | .bool p, .bool q => p == q
  | .null, .null => true
  | _, _ => false

/-- Elementwise list comparison feeding `Json.beq`. -/
def Json.beqList (xs ys : List Json) : Bool :=
  match xs, ys with
  | u :: us, v :: vs => Json.beq u v && Json.beqList us vs
  | [], [] => true
  | _, _ => false

/-- Entrywise comparison of dict entries (key then value) feeding
`Json.beq`. -/
def Json.beqObj (xs ys : List (String × Json)) : Bool :=
  match xs, ys with
  | u :: us, v :: vs => u.1 == v.1 && Json.beq u.2 v.2 && Json.beqObj us vs
  | [], [] => true
  | _, _ => false

end

/-- The limited-time tournament subsetting of main (source lines
434-444), entered when 70 percent of the runtime budget is spent:
England tournaments are kept first, then others up to 20 in total.
`none` models an exception in the comprehensions, which propagates to
the top-level handler of main. -/
def limitTournaments? (ts : List Json) : Option (List Json) :=
  if 20 < ts.length then do
    let flags ← ts.mapM isEnglandT?
    let england := ((ts.zip flags).filter (fun p => p.2)).map Prod.fst
    let other := ts.filter (fun t => !(england.any (fun e => Json.beq e t)))
    pure (england ++ other.take (20 - england.length))
  else pure ts

/-- What each output destination receives, at the JSON-value level (the
byte rendering belongs to the Python json library, outside this
repository).  `none` means the file is not written. -/
structure EmitResult where
  testFile : Option Json
  standardFile : Option Json
  stdoutJson : Json

/-- The JSON object json.dump writes for one record (keys in the
construction order of the source dict). -/
def recordToJson (r : Record) : Json :=
  .obj [("eventId", .str r.eventId), ("originalEventId", r.originalEventId),
        ("country", r.country), ("tournament", r.tournament),
        ("event", .str r.event), ("market", .str r.market),
        ("home_odds", r.home_odds), ("draw_odds", r.draw_odds),
        ("away_odds", r.away_odds),
        ("start_time", match r.start_time with | some s => .str s | none => .null)]

/-- Whether a JSON value is hashable as a Python dict key: lists and
dicts are not, everything else here is. -/
def pyHashable : Json → Bool
  | .arr _ => false
  | .obj _ => false
  | _ => true

/-- Per-record body of the diagnostics loop of main (source lines
459-465), which runs BEFORE any file is written: the country value is
used as a dict key at line 461, raising TypeError when it is a list or
a dict, and an England record whose tournament value is not a string
raises at find (line 464, reached only when country equals the string
England by short-circuit).  `none` models the raise, which propagates
to the top-level handler of main. -/
def countEvent? (r : Record) : Option Unit :=
  if !(pyHashable r.country) then none
  else match r.country with
    | .str c =>
      if c == "England" then
        match r.tournament with
        | .str _ => some ()
        | _ => none
      else some ()
    | _ => some ()

/-- The output phase of main (source lines 450-514): for a non-empty
collection the diagnostics loop (lines 455-465) runs first and may
raise (`none`, aborting main with NO file written); when it passes,
the collection is dumped to the test file data/sporty_py.json, to the
standard file data/sporty.json, and to stdout; an empty collection is
only printed to stdout as an empty array and no file is written
("No events collected, file not saved", line 511). -/
def emit? (all_events : List Record) : Option EmitResult :=
  if !all_events.isEmpty then
    match all_events.mapM countEvent? with
    | some _ =>
      some { testFile := some (Json.arr (all_events.map recordToJson)),
             standardFile := some (Json.arr (all_events.map recordToJson)),
             stdoutJson := Json.arr (all_events.map recordToJson) }
    | none => none
  else some { testFile := none, standardFile := none, stdoutJson := Json.arr [] }

/-- Embeds main (source lines 366-524) as a function of the fetch
oracle, the budget oracle, and whether the limited-time branch is
taken: the returned Nat is the VALUE RETURNED BY main (0 on normal
completion, 1 from the top-level handler, which also prints an empty
array to stdout and leaves the files unwritten).  The handler is
reached either from the limited-time comprehension or from the
diagnostics loop of the output phase. -/
def mainRun (fetch : Nat → Option Json) (tEx : Nat → Bool) (limited : Bool) :
    Nat × EmitResult :=
  let all_tournaments := paginate fetch tEx
  match (if limited then limitTournaments? all_tournaments else some all_tournaments) with
  | some ts =>
    match emit? (process_tournaments ts) with
    | some er => (0, er)
    | none => (1, { testFile := none, standardFile := none, stdoutJson := Json.arr [] })
  | none => (1, { testFile := none, standardFile := none, stdoutJson := Json.arr [] })

/-- Embeds the `__main__` block (source lines 526-535): it calls main()
as a bare statement, DISCARDING its return value; since main catches
every Exception itself, the `except` clause with sys.exit(1) is
unreachable for ordinary errors, the script falls off the end, and the
interpreter exits with code 0 regardless of the value main returned. -/
def scriptRun (fetch : Nat → Option Json) (tEx : Nat → Bool) (limited : Bool) :
    Nat × EmitResult :=
  let r := mainRun fetch tEx limited
  (0, r.2)

/-- Decoder for one record object as written by json.dump, the inverse
direction of the round trip: re-parsing a destination recovers the
record fields from the dumped object. -/
def recordOfJson? (j : Json) : Option Record :=
  match j with
  | .obj [("eventId", .str eid), ("originalEventId", oid), ("country", c),
          ("tournament", t), ("event", .str lbl), ("market", .str mkt),
          ("home_odds", h), ("draw_odds", d), ("away_odds", a),
          ("start_time", st)] =>
    match st with
    | .null => some ⟨eid, oid, c, t, lbl, mkt, h, d, a, none⟩
    | .str s => some ⟨eid, oid, c, t, lbl, mkt, h, d, a, some s⟩
    | _ => none
  | _ => none

/-- Re-parsing of a whole destination: a JSON array of record objects
decodes to the list of records. -/
def decodeRecords (j : Json) : Option (List Record) :=
  match j with
  | .arr l => l.mapM recordOfJson?
  | _ => none

/-! Concrete fixtures used by the claim theorems: raw nodes in the
provider shape consumed by the scraper. -/

/-- Outcome node with descriptor Home and odds 2. -/
def outHome : Json := .obj [("desc", .str "Home"), ("odds", .num 2)]

/-- Outcome node with descriptor Draw and odds 0 (the zero sentinel). -/
def outDraw0 : Json := .obj [("desc", .str "Draw"), ("odds", .num 0)]

/-- Outcome node with descriptor Away and odds 3. -/
def outAway : Json := .obj [("desc", .str "Away"), ("odds", .num 3)]

/-- Outcome node with descriptor Draw and odds 4. -/
def outDraw : Json := .obj [("desc", .str "Draw"), ("odds", .num 4)]

/-- Raw event node with the given identifier and 1X2 outcomes. -/
def mkEv (id : String) (outs : List Json) : Json :=
  .obj [("homeTeamName", .str "A"), ("awayTeamName", .str "B"),
    ("eventId", .str id),
    ("markets", .arr [.obj [("id", .str "1"), ("outcomes", .arr outs)]])]

/-- Fully valid raw event node. -/
def evGood : Json := mkEv "sr:match:123" [outHome, outDraw, outAway]

/-- Raw event node whose draw odds are zero while home and away odds
are present and nonzero. -/
def evOneZero : Json := mkEv "sr:match:9" [outHome, outDraw0, outAway]

/-- Raw event node whose identifier contains no digit at all. -/
def evNoDigits : Json := mkEv "sr:match:" [outHome, outDraw, outAway]

/-- Tournament node holding the valid event. -/
def tGood : Json := .obj [("name", .str "T"), ("events", .arr [evGood])]

/-- Tournament node holding the single-zero-odds event. -/
def tOneZero : Json := .obj [("name", .str "T"), ("events", .arr [evOneZero])]

/-- Tournament node holding another valid event, served on page 3 of
the pagination fixtures. -/
def t3 : Json := .obj [("name", .str "T3"),
  ("events", .arr [mkEv "sr:match:77" [outHome, outDraw, outAway]])]

/-- Tournament node whose first event is not a dict: accepted by the
pagination loop, but the limited-time England comprehension raises on
it. -/
def tBad : Json := .obj [("name", .str "B"), ("events", .arr [.num 7])]

/-- The record process_event produces for `evGood`. -/
def recGood : Record :=
  { eventId := "123"
    originalEventId := .str "sr:match:123"
    country := .str "Unknown"
    tournament := .str "Unknown Tournament"
    event := "A - B"
    market := "1X2"
    home_odds := .num 2
    draw_odds := .num 4
    away_odds := .num 3
    start_time := none }

/-- Page payload in the provider envelope for a tournament list. -/
def pdOf (ts : List Json) : Json := .obj [("data", .obj [("tournaments", .arr ts)])]

/-- Valid page carrying no tournaments: the end-of-data signal. -/
def emptyPage : Json := pdOf []

/-- Fetch oracle that always reports the end-of-data page. -/
def fetchEmptyRun : Nat → Option Json := fun _ => some emptyPage

/-- Fetch oracle where page 2 fails while pages 1 and 3 are valid. -/
def fetchFail2 : Nat → Option Json := fun p =>
  if p == 1 then some (pdOf [tGood]) else if p == 3 then some (pdOf [t3]) else none

/-- Fetch oracle where pages 1 to 3 are valid and page 4 fails. -/
def fetchOk : Nat → Option Json := fun p =>
  if p == 1 then some (pdOf [tGood]) else if p == 2 then some (pdOf [tOneZero])
  else if p == 3 then some (pdOf [t3]) else none

/-- Fetch oracle serving 21 tournaments on page 1, the last of them
`tBad`, so that the limited-time branch of main raises. -/
def fetchC3 : Nat → Option Json := fun p =>
  if p == 1 then some (pdOf (List.replicate 20 tGood ++ [tBad])) else none

/-- Budget oracle that never reports the runtime limit as exceeded. -/
def tF : Nat → Bool := fun _ => false

/-- Budget oracle that always reports the runtime limit as exceeded. -/
def tT : Nat → Bool := fun _ => true

/-- Tournament node holding the digitless-identifier event, for the
live normalization path. -/
def tNoDigits : Json := .obj [("name", .str "T"), ("events", .arr [evNoDigits])]

/-- The record processEventT produces for `evGood` under country
Unknown and tournament name T. -/
def recGoodT : Record :=
  { eventId := "123"
    originalEventId := .str "sr:match:123"
    country := .str "Unknown"
    tournament := .str "T"
    event := "A - B"
    market := "1X2"
    home_odds := .num 2
    draw_odds := .num 4
    away_odds := .num 3
    start_time := none }

/-- Raw event node whose sport category name is a JSON ARRAY: the
country extraction of process_tournaments copies it into the record
unchecked (no truthiness test on the name, and the England test
short-circuits without raising since an array never equals a
string). -/
def evArrCountry : Json := .obj [("homeTeamName", .str "A"), ("awayTeamName", .str "B"),
  ("eventId", .str "sr:match:55"),
  ("sport", .obj [("category", .obj [("name", .arr [.str "X"])])]),
  ("markets", .arr [.obj [("id", .str "1"), ("outcomes", .arr [outHome, outDraw, outAway])]])]

/-- Tournament node whose records carry the array-valued country. -/
def tArrCountry : Json := .obj [("name", .str "TA"), ("events", .arr [evArrCountry])]

/-- Fetch oracle serving the array-country tournament on page 1. -/
def fetchArrCountry : Nat → Option Json := fun p =>
  if p == 1 then some (pdOf [tArrCountry]) else none

/-! Shared helper lemmas. -/

/-- A stripped identifier consists of digit characters only. -/
theorem stripNonDigits_all_digits (s : String) :
    (stripNonDigits s).data.all Char.isDigit = true := by
  simp only [stripNonDigits, List.all_eq_true, List.mem_filter]
  exact fun a ha => ha.2

/-- Decoding inverts encoding for a single record. -/
theorem recordOfJson_recordToJson (r : Record) :
    recordOfJson? (recordToJson r) = some r := by
  rcases r with ⟨eid, oid, c, t, lbl, mkt, h, d, a, st⟩
  cases st <;> rfl

/-- Decoding inverts encoding for a list of records. -/
theorem mapM_recordOfJson_map_recordToJson (l : List Record) :
    (l.map recordToJson).mapM recordOfJson? = some l := by
  induction l with
  | nil => rfl
  | cons x xs ih =>
    simp only [List.map_cons, List.mapM_cons, recordOfJson_recordToJson, ih,
      Option.pure_def, Option.bind_eq_bind, Option.some_bind]

/-! Claim theorems. -/

/-- C1: the claim says a raw node with ANY of the three 1X2 odds absent
or zero is rejected, so no output record carries a zero odds value.
The live output path process_tournaments skips an event only when ALL
three odds are zero (`and` at source line 265), contradicting its own
comment ("Skip events with missing odds") and the sibling normalizer
process_event, which uses `or` (line 165) but is never called by main.
At the failing input, a record with draw odds 0 reaches the output. -/
theorem C1_zero_draw_odds_in_output :
    (process_tournaments [tOneZero]).map Record.draw_odds = [Json.num 0] ∧
    process_event evOneZero = none :=
  ⟨rfl, rfl⟩

/-- C2 counterexample: two raw nodes normalizing to the same event
identifier both survive — the final collection of a run holding the
same tournament twice contains two records with identifier "123",
refuting "exactly one record with that identifier". -/
theorem C2_duplicate_identifier_twice_in_output :
    (process_tournaments [tGood, tGood]).map Record.eventId = ["123", "123"] :=
  rfl

/-- C2 amended: the aggregator performs no deduplication at all; each
accepted raw node appends its own record, so the output of a
concatenation of tournament lists is the concatenation of the outputs,
and an identifier seen from two raw nodes appears twice. -/
theorem C2_no_dedup_append (xs ys : List Json) :
    process_tournaments (xs ++ ys) =
      process_tournaments xs ++ process_tournaments ys := by
  simp [process_tournaments]

/-- C9: normalization is a deterministic function of the raw node.
The embedding witnesses purity by construction: process_event is a
total function of the node alone (the source touches no shared mutable
state, its logging goes to stderr without affecting the value, and the
serialization round trip of line 189 is the identity; the start-time
timezone dependence is excluded by the claim and fixed in the model). -/
theorem C9_process_event_deterministic (e : Json) (r1 r2 : Record)
    (h1 : process_event e = some r1) (h2 : process_event e = some r2) :
    r1 = r2 := by
  rw [h1] at h2
  exact Option.some.inj h2

/-- C9 witness: the determinism theorem applied at the valid fixture
event, whose normalization is evaluated by rfl. -/
theorem C9_witness : recGood = recGood :=
  C9_process_event_deterministic evGood recGood recGood rfl rfl

/-- C3: the claim says the process exits 0 on normal completion
(confirmed, including the zero-record run) and 1 on an unhandled
top-level failure (refuted): main returns 1 from its top-level handler
after printing an empty array, but the `__main__` block calls main()
without passing the return value to sys.exit, so the interpreter exits
0.  The failing run serves 21 tournaments whose last has a non-dict
first event, making the limited-time England comprehension (lines
440-442, outside any inner handler) raise. -/
theorem C3_exit_code_discarded :
    (mainRun fetchC3 tF true).1 = 1 ∧
    (mainRun fetchC3 tF true).2.stdoutJson = Json.arr [] ∧
    (scriptRun fetchC3 tF true).1 = 0 ∧
    scriptRun fetchEmptyRun tF false =
      (0, { testFile := none, standardFile := none, stdoutJson := Json.arr [] }) :=
  ⟨rfl, rfl, rfl, rfl⟩

/-- C4 counterexample: no retry ceiling exists and a failed page is not
advanced past: when page 2 fails, pagination ends with only the data of
page 1, although page 3 is valid and is collected whenever page 2
succeeds — refuting "the fetch is retried up to a fixed retry ceiling
... pagination advances past it to the next page". -/
theorem C4_failed_page_ends_run :
    paginate fetchFail2 tF = [tGood] ∧
    (process_tournaments (paginate fetchFail2 tF)).map Record.eventId = ["123"] ∧
    paginate fetchOk tF = [tGood, tOneZero, t3] :=
  ⟨rfl, rfl, rfl⟩

/-- C4 amended: a failed fetch is never retried — each page is fetched
at most once per run; a failure on page 1 merely advances to page 2,
while a failure on any later page ends pagination immediately,
preserving the tournaments already collected (later pages are not
fetched). -/
theorem C4_fetch_failure_behaviour (fetch : Nat → Option Json)
    (tEx : Nat → Bool) (fuel page : Nat) (acc : List Json)
    (htEx : tEx page = false) (hf : fetch page = none) :
    (2 ≤ page → paginateGo fetch tEx (fuel + 1) page acc = acc) ∧
    (page = 1 → paginateGo fetch tEx (fuel + 1) page acc =
      paginateGo fetch tEx fuel (page + 1) acc) := by
  constructor
  · intro h2
    by_cases hp : page ≤ MAX_PAGES
    · have h1 : 1 < page := h2
      simp [paginateGo, hp, htEx, pageStep, hf, h1]
    · simp [paginateGo, hp]
  · intro h1
    subst h1
    have hp : 1 ≤ MAX_PAGES := by decide
    simp [paginateGo, hp, htEx, pageStep, hf]

/-- C4 witness: both parts of the amended theorem applied at a fetch
oracle that fails everywhere. -/
theorem C4_fetch_failure_behaviour_witness :
    paginateGo (fun _ => none) tF 18 2 [tGood] = [tGood] ∧
    paginateGo (fun _ => none) tF 20 1 [] = paginateGo (fun _ => none) tF 19 2 [] :=
  ⟨(C4_fetch_failure_behaviour (fun _ => none) tF 17 2 [tGood] rfl rfl).1 (by decide),
   (C4_fetch_failure_behaviour (fun _ => none) tF 19 1 [] rfl rfl).2 rfl⟩

/-- C5 counterexample, both failure modes of the original claim: for
the empty collection main takes the "No events collected, file not
saved" branch (line 511) and writes only stdout; and a REACHABLE
non-empty collection — one whose record carries an array-valued
country, produced by process_tournaments from the array category name
— makes the diagnostics loop raise at line 461 before any file write,
so main emits nothing to the files, prints an empty array to stdout
and returns 1. -/
theorem C5_emission_failure_modes :
    emit? [] = some { testFile := none, standardFile := none, stdoutJson := Json.arr [] } ∧
    (process_tournaments [tArrCountry]).map Record.country = [Json.arr [Json.str "X"]] ∧
    emit? (process_tournaments [tArrCountry]) = none ∧
    mainRun fetchArrCountry tF false =
      (1, { testFile := none, standardFile := none, stdoutJson := Json.arr [] }) :=
  ⟨rfl, rfl, rfl, rfl⟩

/-- C5 amended: a non-empty collection whose every record passes the
diagnostics loop (its country usable as a dict key, and England
records carrying a string tournament) is written to the test file, the
standard file and stdout, and re-parsing any of those destinations
yields exactly the records passed in; the empty collection is emitted
only on stdout as a parseable empty array with neither file written;
a record failing the loop aborts main before any write, leaving an
empty array on stdout and no file. -/
theorem C5_emit_roundtrip (l : List Record) (hne : l ≠ [])
    (hok : ∀ r ∈ l, countEvent? r = some ()) :
    emit? l = some { testFile := some (Json.arr (l.map recordToJson)),
                     standardFile := some (Json.arr (l.map recordToJson)),
                     stdoutJson := Json.arr (l.map recordToJson) } ∧
    decodeRecords (Json.arr (l.map recordToJson)) = some l ∧
    emit? [] = some { testFile := none, standardFile := none, stdoutJson := Json.arr [] } := by
  have hE : l.isEmpty = false := by
    cases l with
    | nil => exact absurd rfl hne
    | cons x xs => rfl
  have hcount : ∃ u, l.mapM countEvent? = some u := by
    clear hE hne
    induction l with
    | nil => exact ⟨[], rfl⟩
    | cons x xs ih =>
      obtain ⟨u, hu⟩ := ih (fun r hr => hok r (List.mem_cons_of_mem x hr))
      refine ⟨() :: u, ?_⟩
      rw [List.mapM_cons, hok x (List.mem_cons_self x xs), hu]
      rfl
  obtain ⟨u, hu⟩ := hcount
  refine ⟨?_, mapM_recordOfJson_map_recordToJson l, rfl⟩
  simp only [List.mapM] at hu
  simp [emit?, hE, hu]

/-- C5 witness: the round-trip theorem applied to a one-record
collection whose record passes the diagnostics loop. -/
theorem C5_emit_roundtrip_witness :
    emit? [recGood] = some { testFile := some (Json.arr ([recGood].map recordToJson)),
                             standardFile := some (Json.arr ([recGood].map recordToJson)),
                             stdoutJson := Json.arr ([recGood].map recordToJson) } ∧
    decodeRecords (Json.arr ([recGood].map recordToJson)) = some [recGood] ∧
    emit? [] = some { testFile := none, standardFile := none, stdoutJson := Json.arr [] } :=
  C5_emit_roundtrip [recGood] (List.cons_ne_nil _ _)
    (fun r hr => by rw [List.mem_singleton] at hr; rw [hr]; rfl)

/-- C7: a raw node lacking the home-team name, the away-team name or
the raw event identifier (its field being absent or None) is rejected
by both normalizers — the dedicated process_event and the per-event
body actually used by process_tournaments — and contributes no
record. -/
theorem C7_missing_fields_rejected (e country tname : Json)
    (h : e.field "homeTeamName" = Json.null ∨ e.field "awayTeamName" = Json.null ∨
         e.field "eventId" = Json.null) :
    process_event e = none ∧ processEventT country tname e = none := by
  cases e with
  | obj kvs =>
    constructor <;>
    ( simp [process_event, processEventT, dget]
      intro h1 h2 h3
      rcases h with h | h | h <;> simp [Json.field] at h
      · rw [h] at h1; simp [Json.truthy] at h1
      · rw [h] at h2; simp [Json.truthy] at h2
      · rw [h] at h3; simp [Json.truthy] at h3 )
  | null => exact ⟨rfl, rfl⟩
  | bool b => exact ⟨rfl, rfl⟩
  | num q => exact ⟨rfl, rfl⟩
  | str s => exact ⟨rfl, rfl⟩
  | arr l => exact ⟨rfl, rfl⟩

/-- C7 witness: the rejection theorem applied to the empty raw node,
which lacks all three required fields. -/
theorem C7_missing_fields_rejected_witness :
    process_event (Json.obj []) = none ∧
    processEventT (Json.str "U") (Json.str "T") (Json.obj []) = none :=
  C7_missing_fields_rejected (Json.obj []) (Json.str "U") (Json.str "T") (Or.inl rfl)

/-- C8: the pagination loop always terminates (it is a total function
of the oracles: the page counter strictly increases and the guard
bounds it by MAX_PAGES = 20), and it stops at the three claimed exits:
when the page counter passes the ceiling, when the budget oracle fires
at a page boundary, and when a page yields zero raw event nodes (or
zero tournaments, the `stop` step).  A run whose first page is valid
but carries zero nodes collects nothing and completes normally with
exit code 0 and an empty array on stdout. -/
theorem C8_pagination_termination (fetch : Nat → Option Json)
    (tEx : Nat → Bool) (fuel page : Nat) (acc : List Json) :
    (MAX_PAGES < page → paginateGo fetch tEx fuel page acc = acc) ∧
    (tEx page = true → paginateGo fetch tEx fuel page acc = acc) ∧
    (pageStep fetch page = PageStep.stop → paginateGo fetch tEx fuel page acc = acc) ∧
    (paginate fetchEmptyRun tF = [] ∧
     scriptRun fetchEmptyRun tF false =
       (0, { testFile := none, standardFile := none, stdoutJson := Json.arr [] })) := by
  refine ⟨?_, ?_, ?_, rfl, rfl⟩
  · intro hgt
    cases fuel with
    | zero => rfl
    | succ n => simp [paginateGo, Nat.not_le.mpr hgt]
  · intro htex
    cases fuel with
    | zero => rfl
    | succ n =>
      by_cases hp : page ≤ MAX_PAGES
      · simp [paginateGo, hp, htex]
      · simp [paginateGo, hp]
  · intro hstop
    cases fuel with
    | zero => rfl
    | succ n =>
      by_cases hp : page ≤ MAX_PAGES
      · by_cases htex : tEx page = true
        · simp [paginateGo, hp, htex]
        · simp [paginateGo, hp, htex, hstop]
      · simp [paginateGo, hp]

/-- C8 witness: the three stopping conditions instantiated — past the
ceiling, with the budget fired, and at the end-of-data page. -/
theorem C8_pagination_termination_witness :
    paginateGo fetchOk tF 5 21 [tGood] = [tGood] ∧
    paginateGo fetchOk tT 5 3 [tGood] = [tGood] ∧
    paginateGo fetchEmptyRun tF 20 1 [] = [] :=
  ⟨(C8_pagination_termination fetchOk tF 5 21 [tGood]).1 (by decide),
   (C8_pagination_termination fetchOk tT 5 3 [tGood]).2.1 rfl,
   (C8_pagination_termination fetchEmptyRun tF 20 1 []).2.2.1 rfl⟩

/-- C10: normalization is total and exception-safe: the per-event and
per-tournament handlers convert every exception into skipping that
node, so process_event yields a record or None for EVERY value, and
process_tournaments yields a list for every input list; a node of
unexpected shape (not a dict) anywhere in the tournament list leaves
the records of the remaining nodes unchanged.  Totality itself is
witnessed by the embedding: both are total Lean functions. -/
theorem C10_totality_and_node_skipping (e t : Json) (ts1 ts2 : List Json)
    (he : e.isObj = false) (ht : t.isObj = false) :
    process_event e = none ∧
    process_tournaments (ts1 ++ t :: ts2) = process_tournaments (ts1 ++ ts2) := by
  constructor
  · cases e with
    | obj kvs => simp [Json.isObj] at he
    | null => rfl
    | bool b => rfl
    | num q => rfl
    | str s => rfl
    | arr l => rfl
  · have hskip : processTournament t = [] := by
      cases t with
      | obj kvs => simp [Json.isObj] at ht
      | null => rfl
      | bool b => rfl
      | num q => rfl
      | str s => rfl
      | arr l => rfl
    simp [process_tournaments, hskip]

/-- C10 witness: the skipping theorem applied to a numeric node among
objects. -/
theorem C10_totality_and_node_skipping_witness :
    process_event (Json.num 5) = none ∧
    process_tournaments ([tGood] ++ Json.num 5 :: []) = process_tournaments ([tGood] ++ []) :=
  C10_totality_and_node_skipping (Json.num 5) (Json.num 5) [tGood] [] rfl rfl

/-- An if-then-else returning none in the positive branch can only
produce a value through the negative branch. -/
theorem ite_none_eq_some {α : Type} {c : Prop} [Decidable c] {x : Option α} {r : α}
    (h : (if c then none else x) = some r) : ¬c ∧ x = some r := by
  by_cases hc : c
  · simp [hc] at h
  · simp [hc] at h
    exact ⟨hc, h⟩

/-- C6 counterexample: the claim says the normalized identifier of an
accepted record is non-empty, but a raw identifier containing no digit
at all is accepted with an EMPTY normalized identifier — nothing in
the source rejects that case, on the live process_tournaments path
just as in process_event. -/
theorem C6_digitless_id_gives_empty_eventId :
    (process_tournaments [tNoDigits]).map Record.eventId = [""] ∧
    (process_event evNoDigits).map Record.eventId = some "" :=
  ⟨rfl, rfl⟩

/-- C6 amended: for every raw node accepted by EITHER normalizer — the
per-event body of process_tournaments (the sole producer of the
records main serializes) or the dedicated process_event — the record
eventId is exactly the raw identifier string with every non-digit
character stripped (hence consists of digit characters only, but MAY
be empty when the raw identifier has no digits), and the original raw
identifier is retained alongside it in the record. -/
theorem C6_eventId_normalization (e country tname : Json) (r : Record)
    (h : process_event e = some r ∨ processEventT country tname e = some r) :
    ∃ s : String, dget e "eventId" (Json.str "") = some (Json.str s) ∧
      r.originalEventId = Json.str s ∧
      r.eventId = stripNonDigits s ∧
      r.eventId.data.all Char.isDigit = true := by
  rcases h with h | h
  · cases e with
    | null => simp [process_event, dget] at h
    | bool b => simp [process_event, dget] at h
    | num q => simp [process_event, dget] at h
    | str s => simp [process_event, dget] at h
    | arr l => simp [process_event, dget] at h
    | obj kvs =>
      simp only [process_event, dget, Option.bind_eq_bind, Option.some_bind, Option.pure_def] at h
      obtain ⟨hguard, h⟩ := ite_none_eq_some h
      obtain ⟨cty, hc, h⟩ := Option.bind_eq_some.mp h
      obtain ⟨tn, htn, h⟩ := Option.bind_eq_some.mp h
      obtain ⟨odds, hodds, h⟩ := Option.bind_eq_some.mp h
      obtain ⟨o1, o2, o3⟩ := odds
      simp only at h
      obtain ⟨hguard2, h⟩ := ite_none_eq_some h
      obtain ⟨nid, hn, h⟩ := Option.bind_eq_some.mp h
      have hev : ((kvs.lookup "eventId").getD Json.null).truthy = true := by
        by_contra hevf
        exact hguard (by simp [Bool.not_eq_true] at hevf; simp [hevf])
      cases hlk : kvs.lookup "eventId" with
      | none => rw [hlk] at hev; simp [Json.truthy] at hev
      | some v =>
        rw [hlk] at hn hev
        simp only [Option.getD] at hn hev
        rw [if_pos hev] at hn
        cases v with
        | str s =>
          refine ⟨s, by simp [dget, hlk], ?_, ?_, ?_⟩
          · rw [← Option.some.inj h]
            simp [hlk]
          · rw [← Option.some.inj h]
            simp only [Option.some.injEq] at hn
            simp [← hn]
          · rw [← Option.some.inj h]
            simp only [Option.some.injEq] at hn
            simp [← hn, stripNonDigits_all_digits]
        | null => simp at hn
        | bool b => simp at hn
        | num q => simp at hn
        | arr l2 => simp at hn
        | obj kvs2 => simp at hn
  · cases e with
    | null => simp [processEventT, dget] at h
    | bool b => simp [processEventT, dget] at h
    | num q => simp [processEventT, dget] at h
    | str s => simp [processEventT, dget] at h
    | arr l => simp [processEventT, dget] at h
    | obj kvs =>
      simp only [processEventT, dget, Option.bind_eq_bind, Option.some_bind, Option.pure_def] at h
      obtain ⟨hguard, h⟩ := ite_none_eq_some h
      obtain ⟨ms, hms, h⟩ := Option.bind_eq_some.mp h
      obtain ⟨mkt, hmkt, h⟩ := Option.bind_eq_some.mp h
      cases mkt with
      | none => simp at h
      | some market =>
        simp only at h
        obtain ⟨hmt, h⟩ := ite_none_eq_some h
        obtain ⟨outs, houts, h⟩ := Option.bind_eq_some.mp h
        obtain ⟨hot, h⟩ := ite_none_eq_some h
        cases outs with
        | arr os =>
          simp only at h
          obtain ⟨pairs, hpairs, h⟩ := Option.bind_eq_some.mp h
          obtain ⟨hz, h⟩ := ite_none_eq_some h
          obtain ⟨nid, hn, h⟩ := Option.bind_eq_some.mp h
          have hev : ((kvs.lookup "eventId").getD Json.null).truthy = true := by
            by_contra hevf
            exact hguard (by simp [Bool.not_eq_true] at hevf; simp [hevf])
          cases hlk : kvs.lookup "eventId" with
          | none => rw [hlk] at hev; simp [Json.truthy] at hev
          | some v =>
            rw [hlk] at hn hev
            simp only [Option.getD] at hn hev
            rw [if_pos hev] at hn
            cases v with
            | str s =>
              refine ⟨s, by simp [dget, hlk], ?_, ?_, ?_⟩
              · rw [← Option.some.inj h]
                simp [hlk]
              · rw [← Option.some.inj h]
                simp only [Option.some.injEq] at hn
                simp [← hn]
              · rw [← Option.some.inj h]
                simp only [Option.some.injEq] at hn
                simp [← hn, stripNonDigits_all_digits]
            | null => simp at hn
            | bool b => simp at hn
            | num q => simp at hn
            | arr l2 => simp at hn
            | obj kvs2 => simp at hn
        | null => simp at h
        | bool b => simp at h
        | num q => simp at h
        | str s => simp at h
        | obj kvs2 => simp at h

/-- C6 witness: the normalization theorem applied on the LIVE path, at
the per-event body of process_tournaments for the valid fixture event
(acceptance evaluated by rfl), and on the process_event path at the
same node. -/
theorem C6_eventId_normalization_witness :
    (∃ s : String, dget evGood "eventId" (Json.str "") = some (Json.str s) ∧
      recGoodT.originalEventId = Json.str s ∧
      recGoodT.eventId = stripNonDigits s ∧
      recGoodT.eventId.data.all Char.isDigit = true) ∧
    (∃ s : String, dget evGood "eventId" (Json.str "") = some (Json.str s) ∧
      recGood.originalEventId = Json.str s ∧
      recGood.eventId = stripNonDigits s ∧
      recGood.eventId.data.all Char.isDigit = true) :=
  ⟨C6_eventId_normalization evGood (Json.str "Unknown") (Json.str "T") recGoodT (Or.inr rfl),
   C6_eventId_normalization evGood (Json.str "Unknown") (Json.str "T") recGood (Or.inl rfl)⟩
